import Mathlib

/-!
A shallow embedding of `DensityOnChrHeatmap.py`, a single-file script that
renders per-chromosome gene-density heatmaps with an overlaid SNP polyline
into an SVG document.

Modelling conventions:
- Python floats are modelled as rationals (`ℚ`); integers as `Int`.
- An input file, after the per-line parse `chrom, start, end, value`,
  is a `List (String × Record)` in file order.
- Python runtime errors (`ValueError` from `max` on an empty sequence or
  `int` on a non-numeric string, `StatisticsError`, `ZeroDivisionError`,
  `KeyError`) are modelled by `Except PyError`.
- `statistics.stdev` returns the square root of the sample variance, which
  is irrational in general.  The only ways `stdev` influences the modelled
  output are (a) `statistics.stdev` raising on fewer than two data points
  and (b) the division by `max_clamp - min_clamp = 2 * stdev` on line 81
  raising exactly when the sample variance is zero; both are modelled
  exactly, via the rational `sampleVariance`.  The fill color chosen for a
  gene rectangle is modelled separately by `color_index`, parametrised by
  the clamp bounds `mean - stdev` and `mean + stdev`.
- Python `sorted` (a stable ascending sort) is modelled by Mathlib's
  stable `List.insertionSort`.
- Python `int()` truncates toward zero, modelled by `pyInt`.
-/

namespace DensityHeatmap

/-- A parsed input record `(start, end, value)` as built on line 15 of the
source: `(int(start), int(end), float(value))`. -/
abbrev Record := Int × Int × ℚ

/-- The Python runtime errors the script can raise. -/
inductive PyError where
  | valueError
  | statisticsError
  | zeroDivisionError
  | keyError
deriving DecidableEq

/-- One step of `read_data`: append a record to the list held under `chrom`,
creating the key at the end of the dict (insertion order) if absent.
Models lines 13 to 15 of the source. -/
def insertRecord : List (String × List Record) → String → Record →
    List (String × List Record)
  | [], chrom, rec => [(chrom, [rec])]
  | (c, recs) :: rest, chrom, rec =>
    if c = chrom then (c, recs ++ [rec]) :: rest
    else (c, recs) :: insertRecord rest chrom rec

/-- The loader `read_data` (lines 8 to 16): fold the parsed lines, in file
order, into a chromosome-keyed insertion-ordered association list. -/
def read_data (lines : List (String × Record)) : List (String × List Record) :=
  lines.foldl (fun d l => insertRecord d l.1 l.2) []

/-- Lookup in a Python dict modelled as an association list. -/
def dictGet {β : Type} : List (String × β) → String → Option β
  | [], _ => none
  | (k, v) :: rest, c => if k = c then some v else dictGet rest c

/-- Layout constants from lines 37 to 42 of the source. -/
def svg_width : ℚ := 1200

/-- Track height (line 38). -/
def chr_height : ℚ := 14

/-- Vertical spacing between tracks (line 39). -/
def chr_spacing : ℚ := 120

/-- Top margin (line 40). -/
def margin_top : ℚ := 160

/-- Bottom margin (line 41). -/
def margin_bottom : ℚ := 100

/-- Side margin (line 42). -/
def margin_side : ℚ := 100

/-- The fixed 5-color diverging-blue palette (line 63). -/
def colors : List String := ["#d1e5f0", "#92c5de", "#4393c3", "#2166ac", "#053061"]

/-- The helper `get_chromosome_length` (lines 18 to 20): maximum gene end
coordinate; `max` on an empty sequence raises `ValueError`, hence `Option`. -/
def get_chromosome_length (data : List Record) : Option Int :=
  (data.map fun r => r.2.1).maximum

/-- Python `max` over a list of integers (raises `ValueError` when empty). -/
def pyMaxInt (l : List Int) : Except PyError Int :=
  match l.maximum with
  | none => .error .valueError
  | some m => .ok m

/-- Python `max` over a list of rationals (raises `ValueError` when empty). -/
def pyMaxQ (l : List ℚ) : Except PyError ℚ :=
  match l.maximum with
  | none => .error .valueError
  | some m => .ok m

/-- Python `min` over a list of rationals (raises `ValueError` when empty). -/
def pyMinQ (l : List ℚ) : Except PyError ℚ :=
  match l.minimum with
  | none => .error .valueError
  | some m => .ok m

/-- Python float division: raises `ZeroDivisionError` on a zero denominator. -/
def pydiv (a b : ℚ) : Except PyError ℚ :=
  if b = 0 then .error .zeroDivisionError else .ok (a / b)

/-- Python `int()` applied to a rational: truncation toward zero. -/
def pyInt (q : ℚ) : Int :=
  if 0 ≤ q then ⌊q⌋ else ⌈q⌉

/-- The codepoints Python `int` strips around a numeric string: the Unicode
whitespace characters.  Taken from CPython 3.11. -/
def pySpaceCodes : List Nat :=
  [0x9, 0xA, 0xB, 0xC, 0xD, 0x20, 0x85, 0xA0, 0x1680,
   0x2000, 0x2001, 0x2002, 0x2003, 0x2004, 0x2005, 0x2006, 0x2007,
   0x2008, 0x2009, 0x200A, 0x2028, 0x2029, 0x202F, 0x205F, 0x3000]

/-- Whether Python `int` strips this character. -/
def isPySpace (c : Char) : Bool := pySpaceCodes.contains c.toNat

/-- The first codepoint of every run of ten consecutive Unicode decimal
digits (category Nd) with values 0 to 9; Python `int` accepts exactly these
as digits.  Taken from CPython 3.11's Unicode tables. -/
def pyDigitStarts : List Nat :=
  [0x30, 0x660, 0x6F0, 0x7C0, 0x966, 0x9E6, 0xA66, 0xAE6, 0xB66, 0xBE6,
   0xC66, 0xCE6, 0xD66, 0xDE6, 0xE50, 0xED0, 0xF20, 0x1040, 0x1090, 0x17E0,
   0x1810, 0x1946, 0x19D0, 0x1A80, 0x1A90, 0x1B50, 0x1BB0, 0x1C40, 0x1C50,
   0xA620, 0xA8D0, 0xA900, 0xA9D0, 0xA9F0, 0xAA50, 0xABF0, 0xFF10, 0x104A0,
   0x10D30, 0x11066, 0x110F0, 0x11136, 0x111D0, 0x112F0, 0x11450, 0x114D0,
   0x11650, 0x116C0, 0x11730, 0x118E0, 0x11950, 0x11C50, 0x11D50, 0x11DA0,
   0x16A60, 0x16AC0, 0x16B50, 0x1D7CE, 0x1D7D8, 0x1D7E2, 0x1D7EC, 0x1D7F6,
   0x1E140, 0x1E2F0, 0x1E950, 0x1FBF0]

/-- The decimal value of a character when Python `int` treats it as a digit:
ASCII digits and every other Unicode decimal digit. -/
def pyDigitVal (c : Char) : Option Nat :=
  pyDigitStarts.findSome? fun s =>
    if s ≤ c.toNat ∧ c.toNat ≤ s + 9 then some (c.toNat - s) else none

/-- Parse the remainder of a numeric string after its first digit: further
digits, with a single underscore allowed between two digits (PEP 515). -/
def parsePyRest (acc : Nat) : List Char → Option Nat
  | [] => some acc
  | '_' :: c :: cs =>
    match pyDigitVal c with
    | some d => parsePyRest (acc * 10 + d) cs
    | none => none
  | c :: cs =>
    match pyDigitVal c with
    | some d => parsePyRest (acc * 10 + d) cs
    | none => none

/-- Parse a numeric string: at least one digit, then `parsePyRest`. -/
def parsePyDigits : List Char → Option Nat
  | [] => none
  | c :: cs =>
    match pyDigitVal c with
    | some d => parsePyRest d cs
    | none => none

/-- Python `int` applied to a string: strip surrounding Unicode whitespace,
then an optional ASCII sign followed by Unicode decimal digits with single
underscores allowed between digits; anything else raises `ValueError`. -/
def parsePyInt (cs : List Char) : Option Int :=
  match ((cs.dropWhile isPySpace).reverse.dropWhile isPySpace).reverse with
  | '+' :: rest => (parsePyDigits rest).map fun n => (n : Int)
  | '-' :: rest => (parsePyDigits rest).map fun n => -(n : Int)
  | rest => (parsePyDigits rest).map fun n => (n : Int)

/-- The sort key `int(x[3:])` from line 36: drop the first 3 characters and
parse the rest as Python `int` does; a non-numeric suffix raises
`ValueError`. -/
def chromSortKey (x : String) : Option Int :=
  parsePyInt (x.drop 3).data

/-- Compute the sort key of every name, failing (like Python `sorted` does)
as soon as one name has a non-numeric suffix. -/
def pyKeys : List String → Option (List Int)
  | [] => some []
  | x :: xs =>
    match chromSortKey x with
    | none => none
    | some k =>
      match pyKeys xs with
      | none => none
      | some ks => some (k :: ks)

/-- The expression `sorted(genes_data.keys(), key=lambda x: int(x[3:]))` from
line 36: compute every key, then sort the names stably and ascendingly by
their keys (Python sort is stable; so is insertion sort). -/
def sortedChromosomes (names : List String) : Except PyError (List String) :=
  match pyKeys names with
  | none => .error .valueError
  | some keys =>
    .ok ((List.insertionSort (fun a b => a.2 ≤ b.2) (names.zip keys)).map (·.1))

/-- Mean of a list of rationals, `statistics.mean` (line 58). -/
def mean (l : List ℚ) : ℚ := l.sum / (l.length : ℚ)

/-- Sample variance (denominator `n - 1`), the square of `statistics.stdev`
(line 59).  `statistics.stdev` itself is its irrational square root; only
its positivity and the fewer-than-two-points error are observable in the
modelled geometry, and both are decided by `sampleVariance`. -/
def sampleVariance (l : List ℚ) : ℚ :=
  ((l.map fun v => (v - mean l) ^ 2).sum) / ((l.length : ℚ) - 1)

/-- The clamp on line 80: `max(min(value, max_clamp), min_clamp)`. -/
def clamped_value (min_clamp max_clamp value : ℚ) : ℚ :=
  max (min value max_clamp) min_clamp

/-- The color bin selection on line 81:
`min(int((clamped - min_clamp) / (max_clamp - min_clamp) * len(colors)), len(colors) - 1)`. -/
def color_index (min_clamp max_clamp value : ℚ) : Int :=
  min (pyInt ((clamped_value min_clamp max_clamp value - min_clamp) /
      (max_clamp - min_clamp) * (colors.length : ℚ))) ((colors.length : Int) - 1)

/-- Per-chromosome pixel width from line 67:
`(svg_width - 2 * margin_side) * (chr_lengths[chrom] / max_chr_len)`. -/
def chrPixelWidth (chr_len max_chr_len : ℚ) : ℚ :=
  (svg_width - 2 * margin_side) * (chr_len / max_chr_len)

/-- Effectful list map: Python's left-to-right loop or comprehension, which
propagates the first raised error. -/
def pymap {α β : Type} (f : α → Except PyError β) : List α → Except PyError (List β)
  | [] => .ok []
  | a :: as =>
    match f a with
    | .error e => .error e
    | .ok b =>
      match pymap f as with
      | .error e => .error e
      | .ok bs => .ok (b :: bs)

/-- One heatmap rectangle (lines 78 to 83): position and width are
proportional with a 1-pixel width floor; line 81 divides by
`max_clamp - min_clamp = 2 * stdev`, which raises `ZeroDivisionError`
exactly when the sample variance is zero.  The rectangle is
`(x, y, width, height)`. -/
def renderGeneRect (chr_len : Int) (y chr_width variance : ℚ) (r : Record) :
    Except PyError (ℚ × ℚ × ℚ × ℚ) :=
  match pydiv ((r.1 : ℚ) - 1) (chr_len : ℚ) with
  | .error e => .error e
  | .ok xr =>
    match pydiv ((r.2.1 : ℚ) - (r.1 : ℚ) + 1) (chr_len : ℚ) with
    | .error e => .error e
    | .ok wr =>
      if variance = 0 then .error .zeroDivisionError
      else .ok (margin_side + xr * chr_width, y, max 1 (wr * chr_width), chr_height)

/-- One SNP polyline point (lines 86 to 88):
`(margin_side + ((start - 1) / chr_len) * chr_width, y - 30 - (value / max_snp_value) * 100)`. -/
def renderSnpPoint (chr_len : Int) (y chr_width max_snp_value : ℚ) (r : Record) :
    Except PyError (ℚ × ℚ) :=
  match pydiv ((r.1 : ℚ) - 1) (chr_len : ℚ) with
  | .error e => .error e
  | .ok xr =>
    match pydiv r.2.2 max_snp_value with
    | .error e => .error e
    | .ok vr => .ok (margin_side + xr * chr_width, y - 30 - vr * 100)

/-- The geometric content of one chromosome's track as rendered by the body
of the loop on lines 65 to 100. -/
structure Track where
  chrom : String
  y : ℚ
  chrLen : Int
  chrWidth : ℚ
  rects : List (ℚ × ℚ × ℚ × ℚ)
  points : List (ℚ × ℚ)
deriving DecidableEq

/-- The vertical offset of the `i`-th track, line 66:
`margin_top + i * (chr_height + chr_spacing)`. -/
def trackY (i : Nat) : ℚ :=
  margin_top + (i : ℚ) * (chr_height + chr_spacing)

/-- The body of the per-chromosome loop (lines 65 to 97) for the pair
`(i, chrom)` of `enumerate(chromosomes)`: vertical offset, width from the
length ratio, heatmap rectangles, SNP polyline points, and the `min` over
point heights used for the vertical axis (line 93), which raises on an
empty point list. -/
def renderChrom (genes_data snps_data : List (String × List Record))
    (chr_lengths : List (String × Int)) (max_chr_len : Int)
    (variance max_snp_value : ℚ) (p : Nat × String) : Except PyError Track :=
  match dictGet chr_lengths p.2 with
  | none => .error .keyError
  | some chr_len =>
    match pydiv (chr_len : ℚ) (max_chr_len : ℚ) with
    | .error e => .error e
    | .ok lr =>
      match dictGet genes_data p.2 with
      | none => .error .keyError
      | some gene_recs =>
        match pymap (renderGeneRect chr_len (trackY p.1)
            ((svg_width - 2 * margin_side) * lr) variance) gene_recs with
        | .error e => .error e
        | .ok rects =>
          match dictGet snps_data p.2 with
          | none => .error .keyError
          | some snp_recs =>
            match pymap (renderSnpPoint chr_len (trackY p.1)
                ((svg_width - 2 * margin_side) * lr) max_snp_value) snp_recs with
            | .error e => .error e
            | .ok points =>
              match pyMinQ (points.map (·.2)) with
              | .error e => .error e
              | .ok _ =>
                .ok ⟨p.2, trackY p.1, chr_len,
                  (svg_width - 2 * margin_side) * lr, rects, points⟩

/-- The parts of the produced SVG document the specification's claims are
about: canvas size and the ordered chromosome tracks. -/
structure Output where
  svgWidth : ℚ
  svgHeight : ℚ
  tracks : List Track
deriving DecidableEq

/-- All values of a dataset in iteration order, as in line 55's
comprehension over chromosomes and records. -/
def allValues (data : List (String × List Record)) : List ℚ :=
  (data.map (·.2)).flatten.map fun r => r.2.2

/-- One entry of the `chr_lengths` dict (lines 50 to 52): the maximum gene
end coordinate of the chromosome's records. -/
def chromLength (genes_data : List (String × List Record)) (chrom : String) :
    Except PyError (String × Int) :=
  match dictGet genes_data chrom with
  | none => .error .keyError
  | some recs =>
    match pyMaxInt (recs.map fun r => r.2.1) with
    | .error e => .error e
    | .ok len => .ok (chrom, len)

/-- The whole pipeline `create_visualization` (lines 32 to 120) on already
parsed input files; `.ok` corresponds to `dwg.save()` succeeding, `.error`
to the uncaught Python exception that aborts the run before any output file
is written.  The single fewer-than-two-values check models both
`statistics.mean` raising on an empty list (line 58) and `statistics.stdev`
raising on fewer than two data points (line 59). -/
def create_visualization (genes snps : List (String × Record)) :
    Except PyError Output :=
  match sortedChromosomes ((read_data genes).map (·.1)) with
  | .error e => .error e
  | .ok chromosomes =>
    match pymap (chromLength (read_data genes)) chromosomes with
    | .error e => .error e
    | .ok chr_lengths =>
      match pyMaxInt (chr_lengths.map (·.2)) with
      | .error e => .error e
      | .ok max_chr_len =>
        match pyMaxQ (allValues (read_data snps)) with
        | .error e => .error e
        | .ok max_snp_value =>
          if (allValues (read_data genes)).length < 2 then .error .statisticsError
          else
            match pymap
                (renderChrom (read_data genes) (read_data snps) chr_lengths max_chr_len
                  (sampleVariance (allValues (read_data genes))) max_snp_value)
                chromosomes.enum with
            | .error e => .error e
            | .ok tracks =>
              .ok ⟨svg_width,
                (chromosomes.length : ℚ) * (chr_height + chr_spacing) +
                  margin_top + margin_bottom,
                tracks⟩

/-- The ascending-suffix order on chromosome names the claims speak of. -/
def suffixLE (a b : String) : Prop :=
  ∃ ka kb, chromSortKey a = some ka ∧ chromSortKey b = some kb ∧ ka ≤ kb

/-- A small concrete gene file: two genes on chromosome 1. -/
def sampleGenes : List (String × Record) :=
  [("chr1", (100, 200, (5 : ℚ))), ("chr1", (300, 400, (7 : ℚ)))]

/-- The concrete SNP file of the specification's scenario: two SNP records
with values 10.0 and 20.0 on chromosome 1. -/
def sampleSnps : List (String × Record) :=
  [("chr1", (1000, 1000, (10 : ℚ))), ("chr1", (2000, 2000, (20 : ℚ)))]

/-- The track produced for `sampleGenes` and `sampleSnps`. -/
def sampleTrack : Track :=
  ⟨"chr1", 160, 400, 1000,
    [(695 / 2, 160, 505 / 2, 14), (1695 / 2, 160, 505 / 2, 14)],
    [(5195 / 2, 80), (10195 / 2, 30)]⟩

/-- The document produced for `sampleGenes` and `sampleSnps`. -/
def sampleOutput : Output := ⟨1200, 394, [sampleTrack]⟩

/-- An alternative SNP file for the same gene file. -/
def altSnps : List (String × Record) :=
  [("chr1", (1500, 1500, (5 : ℚ)))]

/-- The track produced for `sampleGenes` and `altSnps`. -/
def altTrack : Track :=
  ⟨"chr1", 160, 400, 1000,
    [(695 / 2, 160, 505 / 2, 14), (1695 / 2, 160, 505 / 2, 14)],
    [(7695 / 2, 30)]⟩

/-- The document produced for `sampleGenes` and `altSnps`. -/
def altOutput : Output := ⟨1200, 394, [altTrack]⟩

/-- A concrete gene file whose values are uniform. -/
def uniformGenes : List (String × Record) :=
  [("chr1", (1, 10, (5 : ℚ))), ("chr1", (11, 20, (5 : ℚ)))]

/-- A concrete SNP file keyed by a chromosome absent from `sampleGenes`. -/
def otherSnps : List (String × Record) :=
  [("chr2", (5, 5, (3 : ℚ)))]

instance {ε α : Type} [DecidableEq ε] [DecidableEq α] : DecidableEq (Except ε α) :=
  fun x y =>
    match x, y with
    | .ok a, .ok b => if h : a = b then isTrue (by rw [h]) else isFalse (by simp [h])
    | .error e, .error f => if h : e = f then isTrue (by rw [h]) else isFalse (by simp [h])
    | .ok _, .error _ => isFalse (by simp)
    | .error _, .ok _ => isFalse (by simp)

/-- Inversion for `pymap` on a cons cell. -/
theorem pymap_ok_cons {α β : Type} {f : α → Except PyError β} {a : α} {as : List α}
    {ys : List β} (h : pymap f (a :: as) = .ok ys) :
    ∃ b bs, f a = .ok b ∧ pymap f as = .ok bs ∧ ys = b :: bs := by
  unfold pymap at h
  cases hfa : f a with
  | error e => rw [hfa] at h; exact absurd h (by simp)
  | ok b =>
    rw [hfa] at h
    cases hrest : pymap f as with
    | error e => rw [hrest] at h; exact absurd h (by simp)
    | ok bs =>
      rw [hrest] at h
      simp only [Except.ok.injEq] at h
      exact ⟨b, bs, rfl, rfl, h.symm⟩

/-- A successful `pymap` preserves the length. -/
theorem pymap_ok_length {α β : Type} {f : α → Except PyError β} :
    ∀ {xs : List α} {ys : List β}, pymap f xs = .ok ys → ys.length = xs.length := by
  intro xs
  induction xs with
  | nil =>
    intro ys h
    simp only [pymap, Except.ok.injEq] at h
    simp [← h]
  | cons a as ih =>
    intro ys h
    obtain ⟨b, bs, _, hrest, rfl⟩ := pymap_ok_cons h
    simp [ih hrest]

/-- Every element of a successful `pymap`'s result comes from some input. -/
theorem pymap_ok_mem {α β : Type} {f : α → Except PyError β} :
    ∀ {xs : List α} {ys : List β}, pymap f xs = .ok ys →
      ∀ y ∈ ys, ∃ x ∈ xs, f x = .ok y := by
  intro xs
  induction xs with
  | nil =>
    intro ys h y hy
    simp only [pymap, Except.ok.injEq] at h
    subst h
    simp at hy
  | cons a as ih =>
    intro ys h y hy
    obtain ⟨b, bs, hfa, hrest, rfl⟩ := pymap_ok_cons h
    rcases List.mem_cons.mp hy with rfl | hy
    · exact ⟨a, List.mem_cons_self a as, hfa⟩
    · obtain ⟨x, hx, hfx⟩ := ih hrest y hy
      exact ⟨x, List.mem_cons_of_mem _ hx, hfx⟩

/-- Every input of a successful `pymap` maps to some element of the result. -/
theorem pymap_ok_forall {α β : Type} {f : α → Except PyError β} :
    ∀ {xs : List α} {ys : List β}, pymap f xs = .ok ys →
      ∀ x ∈ xs, ∃ y ∈ ys, f x = .ok y := by
  intro xs
  induction xs with
  | nil => intro ys _ x hx; simp at hx
  | cons a as ih =>
    intro ys h x hx
    obtain ⟨b, bs, hfa, hrest, rfl⟩ := pymap_ok_cons h
    rcases List.mem_cons.mp hx with rfl | hx
    · exact ⟨b, List.mem_cons_self b bs, hfa⟩
    · obtain ⟨y, hy, hfy⟩ := ih hrest x hx
      exact ⟨y, List.mem_cons_of_mem _ hy, hfy⟩

/-- A successful `pymap` maps inputs to outputs positionally. -/
theorem pymap_ok_get {α β : Type} {f : α → Except PyError β} :
    ∀ {xs : List α} {ys : List β}, pymap f xs = .ok ys →
      ∀ (i : Nat) (hi : i < xs.length) (hi2 : i < ys.length),
        f (xs.get ⟨i, hi⟩) = .ok (ys.get ⟨i, hi2⟩) := by
  intro xs
  induction xs with
  | nil => intro ys h i hi _; exact absurd hi (by simp)
  | cons a as ih =>
    intro ys h i hi hi2
    obtain ⟨b, bs, hfa, hrest, rfl⟩ := pymap_ok_cons h
    match i with
    | 0 => exact hfa
    | n + 1 =>
      exact ih hrest n (Nat.lt_of_succ_lt_succ hi) (Nat.lt_of_succ_lt_succ hi2)

/-- A found dict entry is a member of the association list. -/
theorem dictGet_mem {β : Type} {c : String} {v : β} :
    ∀ {d : List (String × β)}, dictGet d c = some v → (c, v) ∈ d := by
  intro d
  induction d with
  | nil => intro h; simp [dictGet] at h
  | cons p rest ih =>
    intro h
    obtain ⟨k, w⟩ := p
    by_cases hk : k = c
    · subst hk
      simp [dictGet] at h
      subst h
      exact List.mem_cons_self _ _
    · simp only [dictGet, if_neg hk] at h
      exact List.mem_cons_of_mem _ (ih h)

/-- A key present among the keys of an association list is found by `dictGet`. -/
theorem dictGet_of_mem_keys {β : Type} {c : String} :
    ∀ {d : List (String × β)}, c ∈ d.map (·.1) → ∃ v, dictGet d c = some v := by
  intro d
  induction d with
  | nil => intro h; simp at h
  | cons p rest ih =>
    intro h
    obtain ⟨k, w⟩ := p
    by_cases hk : k = c
    · exact ⟨w, by simp [dictGet, hk]⟩
    · have h2 : c ∈ rest.map (·.1) := by
        simp only [List.map_cons, List.mem_cons] at h
        rcases h with h1 | h1
        · exact absurd h1.symm hk
        · exact h1
      obtain ⟨v, hv⟩ := ih h2
      exact ⟨v, by simp [dictGet, hk, hv]⟩

/-- Inserting a record preserves the all-values-nonempty invariant. -/
theorem insertRecord_nonempty {d : List (String × List Record)} {c : String} {r : Record}
    (hd : ∀ p ∈ d, p.2 ≠ []) : ∀ p ∈ insertRecord d c r, p.2 ≠ [] := by
  induction d with
  | nil =>
    intro p hp
    simp only [insertRecord, List.mem_singleton] at hp
    subst hp
    simp
  | cons q rest ih =>
    intro p hp
    obtain ⟨k, recs⟩ := q
    by_cases hk : k = c
    · simp only [insertRecord, if_pos hk] at hp
      rcases List.mem_cons.mp hp with rfl | hp
      · simp
      · exact hd p (List.mem_cons_of_mem _ hp)
    · simp only [insertRecord, if_neg hk] at hp
      rcases List.mem_cons.mp hp with rfl | hp
      · exact hd _ (List.mem_cons_self _ _)
      · exact ih (fun q hq => hd q (List.mem_cons_of_mem _ hq)) p hp

/-- Auxiliary invariant for `read_data`'s fold. -/
theorem read_data_fold_nonempty (lines : List (String × Record)) :
    ∀ (d : List (String × List Record)), (∀ p ∈ d, p.2 ≠ []) →
      ∀ p ∈ lines.foldl (fun d l => insertRecord d l.1 l.2) d, p.2 ≠ [] := by
  induction lines with
  | nil => intro d hd p hp; exact hd p hp
  | cons l rest ih =>
    intro d hd p hp
    exact ih (insertRecord d l.1 l.2) (insertRecord_nonempty hd) p hp

/-- Every chromosome of a loaded dataset has at least one record. -/
theorem read_data_values_nonempty (lines : List (String × Record)) :
    ∀ p ∈ read_data lines, p.2 ≠ [] :=
  read_data_fold_nonempty lines [] (by simp)

/-- A chromosome found in a loaded dataset has a nonempty record list. -/
theorem dictGet_read_data_ne_nil {lines : List (String × Record)} {c : String}
    {recs : List Record} (h : dictGet (read_data lines) c = some recs) : recs ≠ [] :=
  read_data_values_nonempty lines (c, recs) (dictGet_mem h)

/-- Inversion for Python division: success means a nonzero denominator and
an exact quotient. -/
theorem pydiv_ok {a b q : ℚ} (h : pydiv a b = .ok q) : b ≠ 0 ∧ q = a / b := by
  unfold pydiv at h
  by_cases hb : b = 0
  · rw [if_pos hb] at h; exact absurd h (by simp)
  · rw [if_neg hb] at h
    simp only [Except.ok.injEq] at h
    exact ⟨hb, h.symm⟩

/-- Inversion for `pyMaxInt`. -/
theorem pyMaxInt_ok {l : List Int} {m : Int} (h : pyMaxInt l = .ok m) :
    l.maximum = some m := by
  unfold pyMaxInt at h
  split at h
  · exact absurd h (by simp)
  next v hl =>
    simp only [Except.ok.injEq] at h
    rw [hl, h]

/-- Inversion for `pyMaxQ`. -/
theorem pyMaxQ_ok {l : List ℚ} {m : ℚ} (h : pyMaxQ l = .ok m) :
    l.maximum = some m := by
  unfold pyMaxQ at h
  split at h
  · exact absurd h (by simp)
  next v hl =>
    simp only [Except.ok.injEq] at h
    rw [hl, h]

/-- Inversion for `renderGeneRect`: success pins down the geometry and
forces a nonzero chromosome length and nonzero sample variance signature. -/
theorem renderGeneRect_ok {chr_len : Int} {y w variance : ℚ} {r : Record}
    {rect : ℚ × ℚ × ℚ × ℚ}
    (h : renderGeneRect chr_len y w variance r = .ok rect) :
    (chr_len : ℚ) ≠ 0 ∧ variance ≠ 0 ∧
      rect = (margin_side + (((r.1 : ℚ) - 1) / (chr_len : ℚ)) * w, y,
        max 1 ((((r.2.1 : ℚ) - (r.1 : ℚ) + 1) / (chr_len : ℚ)) * w), chr_height) := by
  unfold renderGeneRect at h
  split at h
  · exact absurd h (by simp)
  next xr h1 =>
    split at h
    · exact absurd h (by simp)
    next wr h2 =>
      split at h
      · exact absurd h (by simp)
      next hv =>
        simp only [Except.ok.injEq] at h
        obtain ⟨hb1, hq1⟩ := pydiv_ok h1
        obtain ⟨_, hq2⟩ := pydiv_ok h2
        subst hq1
        subst hq2
        exact ⟨hb1, hv, h.symm⟩

/-- Inversion for `renderSnpPoint`: success pins down the point, with the
y-coordinate `y - 30 - (value / max_snp_value) * 100` of lines 86 to 88. -/
theorem renderSnpPoint_ok {chr_len : Int} {y w max_snp_value : ℚ} {r : Record}
    {pt : ℚ × ℚ} (h : renderSnpPoint chr_len y w max_snp_value r = .ok pt) :
    (chr_len : ℚ) ≠ 0 ∧ max_snp_value ≠ 0 ∧
      pt = (margin_side + (((r.1 : ℚ) - 1) / (chr_len : ℚ)) * w,
        y - 30 - (r.2.2 / max_snp_value) * 100) := by
  unfold renderSnpPoint at h
  split at h
  · exact absurd h (by simp)
  next xr h1 =>
    split at h
    · exact absurd h (by simp)
    next vr h2 =>
      simp only [Except.ok.injEq] at h
      obtain ⟨hb1, hq1⟩ := pydiv_ok h1
      obtain ⟨hb2, hq2⟩ := pydiv_ok h2
      subst hq1
      subst hq2
      exact ⟨hb1, hb2, h.symm⟩

/-- Inversion for `chromLength`: success means the entry's length is the
maximum gene end coordinate of the chromosome's records. -/
theorem chromLength_ok {genes_data : List (String × List Record)} {chrom : String}
    {entry : String × Int} (h : chromLength genes_data chrom = .ok entry) :
    ∃ recs, dictGet genes_data chrom = some recs ∧
      (recs.map fun r => r.2.1).maximum = some entry.2 ∧ entry.1 = chrom := by
  unfold chromLength at h
  split at h
  · exact absurd h (by simp)
  next recs h1 =>
    split at h
    · exact absurd h (by simp)
    next len h2 =>
      simp only [Except.ok.injEq] at h
      subst h
      exact ⟨recs, h1, pyMaxInt_ok h2, rfl⟩

/-- Inversion for `renderChrom`: success pins down every component of the
produced track. -/
theorem renderChrom_ok {genes_data snps_data : List (String × List Record)}
    {chr_lengths : List (String × Int)} {max_chr_len : Int}
    {variance max_snp_value : ℚ} {p : Nat × String} {tr : Track}
    (h : renderChrom genes_data snps_data chr_lengths max_chr_len
      variance max_snp_value p = .ok tr) :
    ∃ gene_recs snp_recs,
      tr.chrom = p.2 ∧
      tr.y = trackY p.1 ∧
      dictGet chr_lengths p.2 = some tr.chrLen ∧
      (max_chr_len : ℚ) ≠ 0 ∧
      tr.chrWidth = chrPixelWidth (tr.chrLen : ℚ) (max_chr_len : ℚ) ∧
      dictGet genes_data p.2 = some gene_recs ∧
      pymap (renderGeneRect tr.chrLen tr.y tr.chrWidth variance) gene_recs
        = .ok tr.rects ∧
      dictGet snps_data p.2 = some snp_recs ∧
      pymap (renderSnpPoint tr.chrLen tr.y tr.chrWidth max_snp_value) snp_recs
        = .ok tr.points := by
  unfold renderChrom at h
  split at h
  · exact absurd h (by simp)
  next chr_len h1 =>
    split at h
    · exact absurd h (by simp)
    next lr h2 =>
      split at h
      · exact absurd h (by simp)
      next gene_recs h3 =>
        split at h
        · exact absurd h (by simp)
        next rects h4 =>
          split at h
          · exact absurd h (by simp)
          next snp_recs h5 =>
            split at h
            · exact absurd h (by simp)
            next points h6 =>
              split at h
              · exact absurd h (by simp)
              next ymin h7 =>
                simp only [Except.ok.injEq] at h
                obtain ⟨hzero, hlr⟩ := pydiv_ok h2
                subst hlr
                subst h
                exact ⟨gene_recs, snp_recs, rfl, rfl, h1, hzero, rfl, h3, h4, h5, h6⟩

/-- Inversion for the whole pipeline: a successful run pins down every
intermediate quantity and the produced document. -/
theorem create_visualization_ok {genes snps : List (String × Record)} {o : Output}
    (h : create_visualization genes snps = .ok o) :
    ∃ chromosomes chr_lengths max_chr_len max_snp_value,
      sortedChromosomes ((read_data genes).map (·.1)) = .ok chromosomes ∧
      pymap (chromLength (read_data genes)) chromosomes = .ok chr_lengths ∧
      pyMaxInt (chr_lengths.map (·.2)) = .ok max_chr_len ∧
      pyMaxQ (allValues (read_data snps)) = .ok max_snp_value ∧
      2 ≤ (allValues (read_data genes)).length ∧
      pymap (renderChrom (read_data genes) (read_data snps) chr_lengths max_chr_len
          (sampleVariance (allValues (read_data genes))) max_snp_value)
        chromosomes.enum = .ok o.tracks ∧
      o.svgWidth = svg_width ∧
      o.svgHeight = (chromosomes.length : ℚ) * (chr_height + chr_spacing) +
        margin_top + margin_bottom := by
  unfold create_visualization at h
  split at h
  · exact absurd h (by simp)
  next chromosomes h1 =>
    split at h
    · exact absurd h (by simp)
    next chr_lengths h2 =>
      split at h
      · exact absurd h (by simp)
      next max_chr_len h3 =>
        split at h
        · exact absurd h (by simp)
        next max_snp_value h4 =>
          split at h
          · exact absurd h (by simp)
          next h5 =>
            split at h
            · exact absurd h (by simp)
            next tracks h6 =>
              simp only [Except.ok.injEq] at h
              subst h
              exact ⟨chromosomes, chr_lengths, max_chr_len, max_snp_value,
                h1, h2, h3, h4, Nat.le_of_not_lt h5, h6, rfl, rfl⟩

/-- A successful `pyKeys` preserves the length. -/
theorem pyKeys_length : ∀ {names : List String} {keys : List Int},
    pyKeys names = some keys → keys.length = names.length := by
  intro names
  induction names with
  | nil =>
    intro keys h
    simp only [pyKeys, Option.some.injEq] at h
    simp [← h]
  | cons x xs ih =>
    intro keys h
    unfold pyKeys at h
    split at h
    · exact absurd h (by simp)
    next k hk =>
      split at h
      · exact absurd h (by simp)
      next ks hks =>
        simp only [Option.some.injEq] at h
        subst h
        simp [ih hks]

/-- Every pair of the zip of names and their computed keys satisfies the key
function. -/
theorem pyKeys_zip_spec : ∀ {names : List String} {keys : List Int},
    pyKeys names = some keys →
      ∀ pr ∈ names.zip keys, chromSortKey pr.1 = some pr.2 := by
  intro names
  induction names with
  | nil => intro keys h pr hpr; simp at hpr
  | cons x xs ih =>
    intro keys h pr hpr
    unfold pyKeys at h
    split at h
    · exact absurd h (by simp)
    next k hk =>
      split at h
      · exact absurd h (by simp)
      next ks hks =>
        simp only [Option.some.injEq] at h
        subst h
        rcases List.mem_cons.mp hpr with rfl | hpr
        · exact hk
        · exact ih hks pr hpr

/-- When some name's suffix does not parse, `pyKeys` fails. -/
theorem pyKeys_none : ∀ {names : List String} {x : String}, x ∈ names →
    chromSortKey x = none → pyKeys names = none := by
  intro names
  induction names with
  | nil => intro x hx; simp at hx
  | cons a as ih =>
    intro x hx hk
    rcases List.mem_cons.mp hx with rfl | hx
    · simp [pyKeys, hk]
    · unfold pyKeys
      cases ha : chromSortKey a with
      | none => rfl
      | some k => rw [ih hx hk]

/-- A successful sort returns a permutation of the keys, pairwise ascending
in the numeric suffix. -/
theorem sortedChromosomes_ok {names out : List String}
    (h : sortedChromosomes names = .ok out) :
    out.Perm names ∧ out.Pairwise suffixLE := by
  unfold sortedChromosomes at h
  split at h
  · exact absurd h (by simp)
  next keys hkeys =>
    simp only [Except.ok.injEq] at h
    subst h
    have hlen : names.length ≤ keys.length := le_of_eq (pyKeys_length hkeys).symm
    have hsortperm :
        List.insertionSort (fun a b : String × Int => a.2 ≤ b.2) (names.zip keys)
          |>.Perm (names.zip keys) := List.perm_insertionSort _ _
    constructor
    · have hmap := hsortperm.map Prod.fst
      rw [List.map_fst_zip names keys hlen] at hmap
      have hfst : ((List.insertionSort (fun a b : String × Int => a.2 ≤ b.2)
          (names.zip keys)).map fun p => p.1) =
          (List.insertionSort (fun a b : String × Int => a.2 ≤ b.2)
            (names.zip keys)).map Prod.fst := rfl
      rw [hfst]
      exact hmap
    · haveI : IsTotal (String × Int) (fun a b => a.2 ≤ b.2) :=
        ⟨fun a b => le_total a.2 b.2⟩
      haveI : IsTrans (String × Int) (fun a b => a.2 ≤ b.2) :=
        ⟨fun _ _ _ hab hbc => le_trans hab hbc⟩
      have hsorted := List.sorted_insertionSort
        (fun a b : String × Int => a.2 ≤ b.2) (names.zip keys)
      have hmem : ∀ pr ∈ List.insertionSort (fun a b : String × Int => a.2 ≤ b.2)
          (names.zip keys), chromSortKey pr.1 = some pr.2 := by
        intro pr hpr
        exact pyKeys_zip_spec hkeys pr (hsortperm.mem_iff.mp hpr)
      have hpw : (List.insertionSort (fun a b : String × Int => a.2 ≤ b.2)
          (names.zip keys)).Pairwise (fun a b => suffixLE a.1 b.1) := by
        refine hsorted.imp_of_mem ?_
        intro a b ha hb hab
        exact ⟨a.2, b.2, hmem a ha, hmem b hb, hab⟩
      exact hpw.map _ (fun a b hab => hab)

/-- When some gene-dataset key has a non-numeric suffix, the sort of line 36
raises `ValueError`. -/
theorem sortedChromosomes_error {names : List String} {x : String} (hx : x ∈ names)
    (hk : chromSortKey x = none) : sortedChromosomes names = .error .valueError := by
  unfold sortedChromosomes
  rw [pyKeys_none hx hk]

/-- The mean of a nonempty constant list is the constant. -/
theorem mean_const {l : List ℚ} {c : ℚ} (hne : l ≠ []) (h : ∀ v ∈ l, v = c) :
    mean l = c := by
  unfold mean
  rw [List.sum_eq_card_nsmul l c h]
  have hn : (l.length : ℚ) ≠ 0 := by
    have hl : l.length ≠ 0 := fun h0 => hne (List.length_eq_zero.mp h0)
    exact_mod_cast hl
  rw [nsmul_eq_mul]
  exact mul_div_cancel_left₀ c hn

/-- A uniform nonempty gene-value list has sample variance zero, which is
exactly when `statistics.stdev` returns zero. -/
theorem sampleVariance_eq_zero_of_const {l : List ℚ} (hne : l ≠ [])
    (h : ∀ v ∈ l, ∀ w ∈ l, v = w) : sampleVariance l = 0 := by
  obtain ⟨c, hc⟩ := List.exists_mem_of_ne_nil l hne
  have hmean : mean l = c := mean_const hne fun v hv => h v hv c hc
  unfold sampleVariance
  have hz : ∀ x ∈ l.map (fun v => (v - mean l) ^ 2), x = 0 := by
    intro x hx
    obtain ⟨v, hv, rfl⟩ := List.mem_map.mp hx
    rw [hmean, h v hv c hc]
    ring
  rw [List.sum_eq_zero hz]
  simp

/-- The chromosome names of the rendered tracks are exactly the sorted
chromosome list, in order. -/
theorem tracks_map_chrom {genes_data snps_data : List (String × List Record)}
    {chr_lengths : List (String × Int)} {max_chr_len : Int}
    {variance max_snp_value : ℚ} {chromosomes : List String} {tracks : List Track}
    (h : pymap (renderChrom genes_data snps_data chr_lengths max_chr_len
        variance max_snp_value) chromosomes.enum = .ok tracks) :
    tracks.map (·.chrom) = chromosomes := by
  have hlen : tracks.length = chromosomes.length := by
    have := pymap_ok_length h
    simpa [List.enum_length] using this
  refine List.ext_get (by simpa using hlen) ?_
  intro n h1 h2
  have hn : n < tracks.length := by simpa using h1
  have hne : n < chromosomes.enum.length := by simpa [List.enum_length] using h2
  have hf := pymap_ok_get h n hne hn
  obtain ⟨_, _, hchrom, _⟩ := renderChrom_ok hf
  have henum : chromosomes.enum.get ⟨n, hne⟩ = (n, chromosomes.get ⟨n, h2⟩) := by
    simpa using List.getElem_enum chromosomes n hne
  rw [henum] at hchrom
  simp only [List.get_map]
  exact hchrom

/-- A successful run forces at least two gene values, a nonzero sample
variance, and a nonzero global max SNP value. -/
theorem create_visualization_ok_facts {genes snps : List (String × Record)} {o : Output}
    (h : create_visualization genes snps = .ok o) :
    2 ≤ (allValues (read_data genes)).length ∧
    sampleVariance (allValues (read_data genes)) ≠ 0 ∧
    ∃ ms, pyMaxQ (allValues (read_data snps)) = .ok ms ∧ ms ≠ 0 := by
  obtain ⟨chromosomes, chr_lengths, max_chr_len, max_snp_value,
    h1, h2, h3, h4, h5, h6, _, _⟩ := create_visualization_ok h
  have hgne : read_data genes ≠ [] := by
    intro hnil
    rw [hnil] at h5
    simp [allValues] at h5
  have hnames : (read_data genes).map (·.1) ≠ [] := by
    simpa using hgne
  have hchne : chromosomes ≠ [] := by
    intro hnil
    have hperm := (sortedChromosomes_ok h1).1
    rw [hnil] at hperm
    exact hnames hperm.symm.eq_nil
  have henum_ne : chromosomes.enum ≠ [] := by
    intro hnil
    apply hchne
    have hlen := congrArg List.length hnil
    simp only [List.enum_length, List.length_nil] at hlen
    exact List.length_eq_zero.mp hlen
  obtain ⟨p, hp⟩ := List.exists_mem_of_ne_nil _ henum_ne
  obtain ⟨tr, _, hrc⟩ := pymap_ok_forall h6 p hp
  obtain ⟨gene_recs, snp_recs, _, _, _, _, _, hg, hrects, hs, hpoints⟩ :=
    renderChrom_ok hrc
  obtain ⟨r, hr⟩ := List.exists_mem_of_ne_nil _ (dictGet_read_data_ne_nil hg)
  obtain ⟨rect, _, hrg⟩ := pymap_ok_forall hrects r hr
  obtain ⟨_, hvar, _⟩ := renderGeneRect_ok hrg
  obtain ⟨sr, hsr⟩ := List.exists_mem_of_ne_nil _ (dictGet_read_data_ne_nil hs)
  obtain ⟨pt, _, hpg⟩ := pymap_ok_forall hpoints sr hsr
  obtain ⟨_, hms, _⟩ := renderSnpPoint_ok hpg
  exact ⟨h5, hvar, max_snp_value, h4, hms⟩

set_option maxRecDepth 4000 in
theorem sample_sorted :
    sortedChromosomes ((read_data sampleGenes).map (·.1)) = .ok ["chr1"] := by
  with_unfolding_all decide

set_option maxRecDepth 4000 in
theorem sample_chrom_length :
    chromLength (read_data sampleGenes) "chr1" = .ok ("chr1", 400) := by
  with_unfolding_all decide

theorem sample_max_len : pyMaxInt ([("chr1", (400 : Int))].map (·.2)) = .ok 400 := by
  with_unfolding_all decide

set_option maxRecDepth 4000 in
theorem sample_max_snp : pyMaxQ (allValues (read_data sampleSnps)) = .ok 20 := by
  with_unfolding_all decide

set_option maxRecDepth 4000 in
theorem sample_variance : sampleVariance (allValues (read_data sampleGenes)) = 2 := by
  with_unfolding_all decide

set_option maxRecDepth 4000 in
theorem sample_num_values : (allValues (read_data sampleGenes)).length = 2 := by
  with_unfolding_all decide

theorem sample_enum : (["chr1"] : List String).enum = [(0, "chr1")] := by decide

theorem sample_genes_table :
    read_data sampleGenes = [("chr1", [(100, 200, 5), (300, 400, 7)])] := by decide

theorem sample_snps_table :
    read_data sampleSnps = [("chr1", [(1000, 1000, 10), (2000, 2000, 20)])] := by decide

theorem sample_min_point : pyMinQ [(80 : ℚ), 30] = .ok 30 := by
  with_unfolding_all decide

theorem sample_render : renderChrom (read_data sampleGenes) (read_data sampleSnps)
    [("chr1", 400)] 400 2 20 (0, "chr1") = .ok sampleTrack := by
  unfold renderChrom
  rw [sample_genes_table, sample_snps_table]
  norm_num [dictGet, pydiv, pymap, renderGeneRect, renderSnpPoint, sample_min_point,
    trackY, svg_width, margin_side, margin_top, chr_height, chr_spacing, sampleTrack]

/-- The pipeline on the concrete sample inputs, evaluated. -/
theorem sample_run : create_visualization sampleGenes sampleSnps = .ok sampleOutput := by
  unfold create_visualization
  simp only [sample_sorted, sample_chrom_length, sample_max_len, sample_max_snp,
    sample_variance, sample_num_values, sample_enum, pymap, sample_render]
  norm_num [sampleOutput, svg_width, chr_height, chr_spacing, margin_top, margin_bottom]

set_option maxRecDepth 4000 in
theorem alt_max_snp : pyMaxQ (allValues (read_data altSnps)) = .ok 5 := by
  with_unfolding_all decide

theorem alt_snps_table :
    read_data altSnps = [("chr1", [(1500, 1500, 5)])] := by decide

theorem alt_min_point : pyMinQ [(30 : ℚ)] = .ok 30 := by
  with_unfolding_all decide

theorem alt_render : renderChrom (read_data sampleGenes) (read_data altSnps)
    [("chr1", 400)] 400 2 5 (0, "chr1") = .ok altTrack := by
  unfold renderChrom
  rw [sample_genes_table, alt_snps_table]
  norm_num [dictGet, pydiv, pymap, renderGeneRect, renderSnpPoint, alt_min_point,
    trackY, svg_width, margin_side, margin_top, chr_height, chr_spacing, altTrack]

/-- The pipeline on the sample genes with the alternative SNP file. -/
theorem alt_run : create_visualization sampleGenes altSnps = .ok altOutput := by
  unfold create_visualization
  simp only [sample_sorted, sample_chrom_length, sample_max_len, alt_max_snp,
    sample_variance, sample_num_values, sample_enum, pymap, alt_render]
  norm_num [altOutput, svg_width, chr_height, chr_spacing, margin_top, margin_bottom]

/-- C1: when the gene-value sample standard deviation is positive, every gene
value is first clamped to the interval from `mean - stdev` to `mean + stdev`
and then binned into one of the 5 palette colors; a value at or above the
upper clamp always gets the last bin (index 4) and a value at or below the
lower clamp always gets the first bin (index 0). -/
theorem color_clamp_extreme_bins (m s v : ℚ) (hs : 0 < s) :
    colors.length = 5 ∧
    (m - s ≤ clamped_value (m - s) (m + s) v ∧
      clamped_value (m - s) (m + s) v ≤ m + s) ∧
    (m + s ≤ v → color_index (m - s) (m + s) v = 4) ∧
    (v ≤ m - s → color_index (m - s) (m + s) v = 0) := by
  have hlt : m - s < m + s := by linarith
  refine ⟨rfl, ⟨le_max_right _ _, max_le (min_le_right _ _) hlt.le⟩, ?_, ?_⟩
  · intro hv
    have hclamp : clamped_value (m - s) (m + s) v = m + s := by
      unfold clamped_value
      rw [min_eq_right hv, max_eq_left hlt.le]
    unfold color_index
    rw [hclamp]
    have hdiv : (m + s - (m - s)) / (m + s - (m - s)) = 1 := div_self (by linarith)
    rw [hdiv, one_mul]
    norm_num [pyInt, colors]
  · intro hv
    have hclamp : clamped_value (m - s) (m + s) v = m - s := by
      unfold clamped_value
      rw [min_eq_left (hv.trans hlt.le), max_eq_right hv]
    unfold color_index
    rw [hclamp]
    have h0 : (m - s - (m - s)) / (m + s - (m - s)) * (colors.length : ℚ) = 0 := by
      rw [sub_self, zero_div, zero_mul]
    rw [h0]
    norm_num [pyInt, colors]

/-- Witness for C1 at mean 0, stdev 1, value 2. -/
theorem color_clamp_extreme_bins_witness : color_index (0 - 1) (0 + 1) 2 = 4 :=
  (color_clamp_extreme_bins 0 1 2 (by norm_num)).2.2.1 (by norm_num)

/-- C2: every plotted SNP point's y-coordinate equals the track offset minus
30 minus `value / max_snp_value * 100`; on the concrete scenario with SNP
values 10 and 20 and global max 20, the two points sit 50 and 100 pixels
above the baseline `y - 30`. -/
theorem snp_point_height_spec :
    (∀ (genes snps : List (String × Record)) (o : Output),
      create_visualization genes snps = .ok o →
      ∀ tr ∈ o.tracks,
        ∃ snp_recs ms,
          dictGet (read_data snps) tr.chrom = some snp_recs ∧
          pyMaxQ (allValues (read_data snps)) = .ok ms ∧
          tr.points.length = snp_recs.length ∧
          ∀ (j : Nat) (hj : j < tr.points.length) (hj2 : j < snp_recs.length),
            (tr.points.get ⟨j, hj⟩).2 =
              tr.y - 30 - ((snp_recs.get ⟨j, hj2⟩).2.2 / ms) * 100) ∧
    (∃ o, create_visualization sampleGenes sampleSnps = .ok o ∧
      o.tracks.map (fun t => t.points.map Prod.snd) =
        [[160 - 30 - 50, 160 - 30 - 100]]) := by
  constructor
  · intro genes snps o h tr htr
    obtain ⟨chromosomes, cl, mcl, ms, h1, h2, h3, h4, h5, h6, _, _⟩ :=
      create_visualization_ok h
    obtain ⟨p, hp, hrc⟩ := pymap_ok_mem h6 tr htr
    obtain ⟨grecs, srecs, hchrom, hy, hcl, hmcl, hw, hg, hrects, hs, hpoints⟩ :=
      renderChrom_ok hrc
    refine ⟨srecs, ms, ?_, h4, pymap_ok_length hpoints, ?_⟩
    · rw [hchrom]; exact hs
    · intro j hj hj2
      have hok := pymap_ok_get hpoints j hj2 hj
      obtain ⟨_, _, hpt⟩ := renderSnpPoint_ok hok
      rw [hpt]
  · exact ⟨sampleOutput, sample_run, by norm_num [sampleOutput, sampleTrack]⟩

/-- Witness for C2 on the concrete scenario. -/
theorem snp_point_height_witness :
    ∃ snp_recs ms,
      dictGet (read_data sampleSnps) sampleTrack.chrom = some snp_recs ∧
      pyMaxQ (allValues (read_data sampleSnps)) = .ok ms ∧
      sampleTrack.points.length = snp_recs.length ∧
      ∀ (j : Nat) (hj : j < sampleTrack.points.length) (hj2 : j < snp_recs.length),
        (sampleTrack.points.get ⟨j, hj⟩).2 =
          sampleTrack.y - 30 - ((snp_recs.get ⟨j, hj2⟩).2.2 / ms) * 100 :=
  snp_point_height_spec.1 sampleGenes sampleSnps sampleOutput sample_run sampleTrack
    (by simp [sampleOutput])

/-- C3: a successful run renders exactly the gene-dataset keys, in ascending
order of the numeric suffix obtained by dropping the first 3 characters;
a key with a non-numeric suffix makes the run fail. -/
theorem chromosome_order_spec (genes snps : List (String × Record)) :
    (∀ o : Output, create_visualization genes snps = .ok o →
      (o.tracks.map (·.chrom)).Perm ((read_data genes).map (·.1)) ∧
      (o.tracks.map (·.chrom)).Pairwise suffixLE) ∧
    ((∃ x ∈ (read_data genes).map (·.1), chromSortKey x = none) →
      (create_visualization genes snps).isOk = false) := by
  constructor
  · intro o h
    obtain ⟨chromosomes, cl, mcl, ms, h1, _, _, _, _, h6, _, _⟩ :=
      create_visualization_ok h
    have hchr := tracks_map_chrom h6
    rw [hchr]
    exact sortedChromosomes_ok h1
  · rintro ⟨x, hx, hk⟩
    unfold create_visualization
    rw [sortedChromosomes_error hx hk]
    rfl

/-- Witness for C3: the sample run is a sorted permutation of the keys, and
a key with non-numeric suffix aborts the run. -/
theorem chromosome_order_witness :
    ((sampleOutput.tracks.map (·.chrom)).Perm ((read_data sampleGenes).map (·.1)) ∧
      (sampleOutput.tracks.map (·.chrom)).Pairwise suffixLE) ∧
    (create_visualization [("chrX", ((1 : Int), (10 : Int), (1 : ℚ)))]
      sampleSnps).isOk = false :=
  ⟨(chromosome_order_spec sampleGenes sampleSnps).1 sampleOutput sample_run,
   (chromosome_order_spec [("chrX", ((1 : Int), (10 : Int), (1 : ℚ)))] sampleSnps).2
     ⟨"chrX", by decide, by decide⟩⟩

/-- C4: every rendered heatmap rectangle is at least 1 pixel wide. -/
theorem gene_rect_min_width (genes snps : List (String × Record)) (o : Output)
    (h : create_visualization genes snps = .ok o) (tr : Track) (htr : tr ∈ o.tracks)
    (rect : ℚ × ℚ × ℚ × ℚ) (hr : rect ∈ tr.rects) : 1 ≤ rect.2.2.1 := by
  obtain ⟨chromosomes, cl, mcl, ms, h1, h2, h3, h4, h5, h6, _, _⟩ :=
    create_visualization_ok h
  obtain ⟨p, hp, hrc⟩ := pymap_ok_mem h6 tr htr
  obtain ⟨grecs, srecs, _, _, _, _, _, _, hrects, _, _⟩ := renderChrom_ok hrc
  obtain ⟨r, hrmem, hrok⟩ := pymap_ok_mem hrects rect hr
  obtain ⟨_, _, hrect⟩ := renderGeneRect_ok hrok
  rw [hrect]
  exact le_max_left _ _

/-- Witness for C4 on the first rectangle of the sample run. -/
theorem gene_rect_min_width_witness :
    (1 : ℚ) ≤ ((695 / 2 : ℚ), (160 : ℚ), (505 / 2 : ℚ), (14 : ℚ)).2.2.1 :=
  gene_rect_min_width sampleGenes sampleSnps sampleOutput sample_run sampleTrack
    (by simp [sampleOutput]) _ (by simp [sampleTrack])

/-- C5: uniform gene values (sample standard deviation zero), a single gene
record, or a zero global max SNP value make the run abort with an uncaught
error, so no output document is produced. -/
theorem degenerate_inputs_fail (genes snps : List (String × Record))
    (h : (∀ v ∈ allValues (read_data genes), ∀ w ∈ allValues (read_data genes), v = w) ∨
      (allValues (read_data genes)).length = 1 ∨
      pyMaxQ (allValues (read_data snps)) = .ok 0) :
    (create_visualization genes snps).isOk = false := by
  cases hok : create_visualization genes snps with
  | error e => rfl
  | ok o =>
    exfalso
    obtain ⟨hlen, hvar, ms, hms, hms0⟩ := create_visualization_ok_facts hok
    rcases h with huni | hone | hzero
    · have hne : allValues (read_data genes) ≠ [] := by
        intro hnil
        rw [hnil] at hlen
        simp at hlen
      exact hvar (sampleVariance_eq_zero_of_const hne huni)
    · omega
    · rw [hms] at hzero
      simp only [Except.ok.injEq] at hzero
      exact hms0 hzero

/-- Witness for C5 on a uniform-valued gene file. -/
theorem degenerate_inputs_fail_witness :
    (create_visualization uniformGenes sampleSnps).isOk = false :=
  degenerate_inputs_fail uniformGenes sampleSnps (Or.inl (by decide))

/-- C6: each track's chromosome length is the maximum gene end coordinate of
that chromosome's gene records only; changing the SNP file cannot change any
track's length or pixel width. -/
theorem chromosome_length_from_genes (genes snps : List (String × Record)) (o : Output)
    (h : create_visualization genes snps = .ok o) :
    (∀ tr ∈ o.tracks, ∃ recs, dictGet (read_data genes) tr.chrom = some recs ∧
      (recs.map fun r => r.2.1).maximum = some tr.chrLen) ∧
    (∀ (snps2 : List (String × Record)) (o2 : Output),
      create_visualization genes snps2 = .ok o2 →
      o.tracks.map (fun t => (t.chrLen, t.chrWidth)) =
        o2.tracks.map (fun t => (t.chrLen, t.chrWidth))) := by
  obtain ⟨chromosomes, cl, mcl, ms, h1, h2, h3, h4, h5, h6, _, _⟩ :=
    create_visualization_ok h
  constructor
  · intro tr htr
    obtain ⟨p, hp, hrc⟩ := pymap_ok_mem h6 tr htr
    obtain ⟨grecs, srecs, hchrom, _, hcl, _, _, _, _, _, _⟩ := renderChrom_ok hrc
    obtain ⟨chrom2, hch2, hce⟩ := pymap_ok_mem h2 _ (dictGet_mem hcl)
    obtain ⟨recs, hrecs, hmax, hfst⟩ := chromLength_ok hce
    have hpc : p.2 = chrom2 := hfst
    refine ⟨recs, ?_, hmax⟩
    rw [hchrom, hpc]
    exact hrecs
  · intro snps2 o2 hb
    obtain ⟨ch2, cl2, mcl2, ms2, g1, g2, g3, g4, g5, g6, _, _⟩ :=
      create_visualization_ok hb
    rw [h1] at g1
    simp only [Except.ok.injEq] at g1
    subst g1
    rw [h2] at g2
    simp only [Except.ok.injEq] at g2
    subst g2
    rw [h3] at g3
    simp only [Except.ok.injEq] at g3
    subst g3
    have hlen6 := pymap_ok_length h6
    have hlen6b := pymap_ok_length g6
    apply List.ext_get
    · simp only [List.length_map]
      rw [hlen6, hlen6b]
    · intro n hn hn2
      simp only [List.length_map] at hn hn2
      have hne : n < chromosomes.enum.length := by rw [← hlen6]; exact hn
      have hne2 : n < chromosomes.enum.length := by rw [← hlen6b]; exact hn2
      have hfa := pymap_ok_get h6 n hne hn
      have hfb := pymap_ok_get g6 n hne2 hn2
      obtain ⟨_, _, _, _, hcla, _, hwa, _, _, _, _⟩ := renderChrom_ok hfa
      obtain ⟨_, _, _, _, hclb, _, hwb, _, _, _, _⟩ := renderChrom_ok hfb
      rw [hcla] at hclb
      simp only [Option.some.injEq] at hclb
      simp only [List.get_map]
      rw [hwa, hwb, hclb]

/-- Witness for C6: sample run against a run with a different SNP file. -/
theorem chromosome_length_witness :
    (∃ recs, dictGet (read_data sampleGenes) sampleTrack.chrom = some recs ∧
      (recs.map fun r => r.2.1).maximum = some sampleTrack.chrLen) ∧
    sampleOutput.tracks.map (fun t => (t.chrLen, t.chrWidth)) =
      altOutput.tracks.map (fun t => (t.chrLen, t.chrWidth)) :=
  ⟨(chromosome_length_from_genes sampleGenes sampleSnps sampleOutput sample_run).1
      sampleTrack (by simp [sampleOutput]),
   (chromosome_length_from_genes sampleGenes sampleSnps sampleOutput sample_run).2
      altSnps altOutput alt_run⟩

/-- C7: for a fixed positive global maximum length, the per-chromosome pixel
width is monotonically non-decreasing in the chromosome's length. -/
theorem chrPixelWidth_monotone (len1 len2 max_len : ℚ) (hmax : 0 < max_len)
    (hle : len1 ≤ len2) : chrPixelWidth len1 max_len ≤ chrPixelWidth len2 max_len := by
  unfold chrPixelWidth
  have hc : (0 : ℚ) ≤ svg_width - 2 * margin_side := by
    norm_num [svg_width, margin_side]
  apply mul_le_mul_of_nonneg_left _ hc
  exact (div_le_div_right hmax).mpr hle

/-- Witness for C7 at lengths 100 and 200 with max 400. -/
theorem chrPixelWidth_monotone_witness :
    chrPixelWidth 100 400 ≤ chrPixelWidth 200 400 :=
  chrPixelWidth_monotone 100 200 400 (by norm_num) (by norm_num)

/-- C8: whenever the clamp bounds satisfy `min_clamp < max_clamp`, the color
bin index is between 0 and 4, so indexing the 5-color palette cannot fail. -/
theorem color_index_in_range (min_clamp max_clamp v : ℚ) (h : min_clamp < max_clamp) :
    0 ≤ color_index min_clamp max_clamp v ∧ color_index min_clamp max_clamp v ≤ 4 := by
  have hcl : min_clamp ≤ clamped_value min_clamp max_clamp v := le_max_right _ _
  have hq : 0 ≤ (clamped_value min_clamp max_clamp v - min_clamp) /
      (max_clamp - min_clamp) * (colors.length : ℚ) := by
    apply mul_nonneg
    · apply div_nonneg
      · linarith
      · linarith
    · positivity
  constructor
  · unfold color_index
    apply le_min
    · unfold pyInt
      rw [if_pos hq]
      exact Int.floor_nonneg.mpr hq
    · norm_num [colors]
  · unfold color_index
    calc min (pyInt ((clamped_value min_clamp max_clamp v - min_clamp) /
          (max_clamp - min_clamp) * (colors.length : ℚ))) ((colors.length : Int) - 1)
        ≤ (colors.length : Int) - 1 := min_le_right _ _
      _ = 4 := by norm_num [colors]

/-- Witness for C8 at bounds 0 and 1 with value 5. -/
theorem color_index_in_range_witness :
    0 ≤ color_index 0 1 5 ∧ color_index 0 1 5 ≤ 4 :=
  color_index_in_range 0 1 5 (by norm_num)

/-- C9: the loader maps every chromosome it returns to a nonempty record
list, because a key is only created when a record is appended under it. -/
theorem read_data_keys_nonempty (lines : List (String × Record))
    (p : String × List Record) (hp : p ∈ read_data lines) : p.2 ≠ [] :=
  read_data_values_nonempty lines p hp

/-- Witness for C9 on the sample gene file. -/
theorem read_data_keys_nonempty_witness :
    (("chr1", [((100 : Int), (200 : Int), (5 : ℚ)), ((300 : Int), (400 : Int), (7 : ℚ))]) :
      String × List Record).2 ≠ [] :=
  read_data_keys_nonempty sampleGenes _ (by decide)

/-- C10: a gene-dataset chromosome missing from the SNP dataset makes the
run fail with an uncaught lookup error, so no output document is produced. -/
theorem missing_snp_chromosome_fails (genes snps : List (String × Record)) (c : String)
    (hc : c ∈ (read_data genes).map (·.1))
    (hmiss : dictGet (read_data snps) c = none) :
    (create_visualization genes snps).isOk = false := by
  cases hok : create_visualization genes snps with
  | error e => rfl
  | ok o =>
    exfalso
    obtain ⟨chromosomes, cl, mcl, ms, h1, h2, h3, h4, h5, h6, _, _⟩ :=
      create_visualization_ok hok
    have hcin : c ∈ chromosomes := ((sortedChromosomes_ok h1).1.mem_iff).mpr hc
    have hcin2 : c ∈ chromosomes.enum.map Prod.snd := by
      rw [List.enum_map_snd]
      exact hcin
    obtain ⟨p, hpmem, hpc⟩ := List.mem_map.mp hcin2
    obtain ⟨tr, _, hrc⟩ := pymap_ok_forall h6 _ hpmem
    obtain ⟨_, srecs, _, _, _, _, _, _, _, hs, _⟩ := renderChrom_ok hrc
    rw [hpc] at hs
    rw [hmiss] at hs
    exact Option.noConfusion hs

/-- Witness for C10: genes on chr1 with SNPs only on chr2. -/
theorem missing_snp_chromosome_witness :
    (create_visualization sampleGenes otherSnps).isOk = false :=
  missing_snp_chromosome_fails sampleGenes otherSnps "chr1" (by decide) (by decide)

end DensityHeatmap
